import Mathlib

/-!
Shallow embedding of `crates/sui-rest-api/src/transactions/resolve.rs`:
transaction resolution (object references, shared-object mutability
inference, gas data assembly, budget estimation, gas coin selection),
together with theorems checking the natural-language specification
against the code.

Machine integers (`u64`, `i64`) are modelled as `Nat`/`Int` with explicit
wrap-around where the Rust code performs arithmetic on them.
-/

deriving instance DecidableEq for Except

namespace Resolve

/-- Object identifiers, addresses and digests are opaque values in the
source; we model them as natural numbers. -/
abbrev ObjectId := Nat

abbrev Address := Nat

abbrev Digest := Nat

/-- Resolved reference triple `(ObjectID, SequenceNumber, ObjectDigest)`. -/
abbrev ObjectRef := ObjectId × Nat × Digest

/-- Model of `sui_sdk_types::types::Argument`. -/
inductive Argument where
  | gasCoin
  | input (idx : Nat)
  | result (idx : Nat)
  | nestedResult (i : Nat) (j : Nat)
deriving DecidableEq

/-- Payload of the `MoveCall` command (fields used by `resolve.rs`). -/
structure MoveCall where
  package : ObjectId
  module : String
  function : String
  arguments : List Argument
deriving DecidableEq

/-- Payload of the `TransferObjects` command. -/
structure TransferObjects where
  objects : List Argument
  address : Argument
deriving DecidableEq

/-- Payload of the `SplitCoins` command. -/
structure SplitCoins where
  coin : Argument
  amounts : List Argument
deriving DecidableEq

/-- Payload of the `MergeCoins` command. -/
structure MergeCoins where
  coin : Argument
  coins_to_merge : List Argument
deriving DecidableEq

/-- Payload of the `Publish` command (no `Argument` fields). -/
structure Publish where
  modules : List (List Nat)
  dependencies : List ObjectId
deriving DecidableEq

/-- Payload of the `MakeMoveVector` command. -/
structure MakeMoveVector where
  elements : List Argument
deriving DecidableEq

/-- Payload of the `Upgrade` command. -/
structure Upgrade where
  modules : List (List Nat)
  dependencies : List ObjectId
  package : ObjectId
  ticket : Argument
deriving DecidableEq

/-- Model of `sui_sdk_types::types::Command`: closed tagged variant. -/
inductive Command where
  | moveCall (c : MoveCall)
  | transferObjects (c : TransferObjects)
  | splitCoins (c : SplitCoins)
  | mergeCoins (c : MergeCoins)
  | publish (c : Publish)
  | makeMoveVector (c : MakeMoveVector)
  | upgrade (c : Upgrade)
deriving DecidableEq

/-- Model of `move_binary_format::normalized::Type`. -/
inductive MoveNormalizedType where
  | bool
  | u8
  | u16
  | u32
  | u64
  | u128
  | u256
  | address
  | signer
  | struct (addr : ObjectId) (module : String) (name : String)
  | vector (t : MoveNormalizedType)
  | typeParameter (n : Nat)
  | reference (t : MoveNormalizedType)
  | mutableReference (t : MoveNormalizedType)
deriving DecidableEq

/-- Normalized function signature: ordered parameter types only. -/
structure NormalizedFunction where
  parameters : List MoveNormalizedType
deriving DecidableEq

/-- Normalized module: function name to signature table. -/
structure NormalizedModule where
  functions : List (String × NormalizedFunction)
deriving DecidableEq

/-- Model of `NormalizedPackage` from `resolve.rs`: module name to normalized module. -/
structure NormalizedPackage where
  normalized_modules : List (String × NormalizedModule)
deriving DecidableEq

/-- The `HashMap<ObjectId, NormalizedPackage>` of called packages, as an
association list. -/
abbrev CalledPackages := List (ObjectId × NormalizedPackage)

/-- Model of `sui_types::object::Owner` (the variants relevant to resolution). -/
inductive Owner where
  | addressOwner (a : Address)
  | objectOwner (o : ObjectId)
  | shared (initial_shared_version : Nat)
  | immutable
deriving DecidableEq

/-- A chain object as consumed by `resolve.rs`: identity, version, digest,
owner, and its value when it parses as a gas coin (`GasCoin::try_from`). -/
structure Object where
  id : ObjectId
  version : Nat
  digest : Digest
  owner : Owner
  as_gas_coin : Option Nat
deriving DecidableEq

/-- One entry of `account_owned_objects_info_iter`: object id plus whether
its type is the gas-coin type (`info.type_.is_gas_coin()`). -/
structure OwnedObjectInfo where
  object_id : ObjectId
  type_is_gas_coin : Bool
deriving DecidableEq

/-- Error taxonomy of the resolver (spec section 7): `NotFound` with an
optional version, `InvalidInput` (HTTP 400 in the code), gas selection
failure, and service-attributable internal errors. -/
inductive Error where
  | notFound (id : ObjectId) (version : Option Nat)
  | invalidInput (msg : String)
  | insufficientResources
  | internal (msg : String)
deriving DecidableEq

/-- The injected read-only chain-state accessor (`StateReader`).
Each operation may itself fail, modelling `Result<_>` returns. -/
structure StateReader where
  get_object : ObjectId → Except Error (Option Object)
  get_object_by_key : ObjectId → Nat → Except Error (Option Object)
  account_owned_objects_info_iter : Address → Except Error (List OwnedObjectInfo)

/-- Model of `sui_sdk_types::types::UnresolvedObjectReference`. -/
structure UnresolvedObjectReference where
  object_id : ObjectId
  version : Option Nat
  digest : Option Digest
deriving DecidableEq

/-- Model of `sui_sdk_types::types::UnresolvedInputArgument`. -/
inductive UnresolvedInputArgument where
  | pure (value : List Nat)
  | immutableOrOwned (obj_ref : UnresolvedObjectReference)
  | shared (object_id : ObjectId) (initial_shared_version : Option Nat)
      (mutable : Option Bool)
  | receiving (obj_ref : UnresolvedObjectReference)
deriving DecidableEq

/-- Model of `sui_types::transaction::ObjectArg`. -/
inductive ObjectArg where
  | immOrOwnedObject (r : ObjectRef)
  | sharedObject (id : ObjectId) (initial_shared_version : Nat) (mutable : Bool)
  | receiving (r : ObjectRef)
deriving DecidableEq

/-- Model of `sui_types::transaction::CallArg`. -/
inductive CallArg where
  | pure (value : List Nat)
  | object (o : ObjectArg)
deriving DecidableEq

/-- Model of `sui_types::transaction::GasData`. -/
structure GasData where
  payment : List ObjectRef
  owner : Address
  price : Nat
  budget : Nat
deriving DecidableEq

/-- Model of `sui_sdk_types::types::UnresolvedGasPayment`. -/
structure UnresolvedGasPayment where
  objects : List UnresolvedObjectReference
  owner : Address
  price : Option Nat
  budget : Option Nat
deriving DecidableEq

/-- Model of `sui_sdk_types::types::UnresolvedProgrammableTransaction`. -/
structure UnresolvedProgrammableTransaction where
  inputs : List UnresolvedInputArgument
  commands : List Command
deriving DecidableEq

/-- Model of `sui_sdk_types::types::UnresolvedTransaction`. -/
structure UnresolvedTransaction where
  sender : Address
  gas_payment : Option UnresolvedGasPayment
  expiration : Nat
  ptb : UnresolvedProgrammableTransaction
deriving DecidableEq

/-- Model of `sui_types::transaction::ProgrammableTransaction`. -/
structure ProgrammableTransaction where
  inputs : List CallArg
  commands : List Command
deriving DecidableEq

/-- Model of `sui_types::transaction::TransactionData` (single `V1` variant, with a
programmable transaction as its kind). -/
structure TransactionData where
  sender : Address
  gas_data : GasData
  ptb : ProgrammableTransaction
  expiration : Nat
deriving DecidableEq

/-- The `GasCostSummary` fields consumed by the budget estimator. -/
structure GasCostSummary where
  computation_cost : Nat
  storage_cost : Nat
  storage_rebate : Nat
deriving DecidableEq

/-! ## Machine-integer helpers -/

/-- Wrap-around of `u64` arithmetic. -/
def wrap64 (n : Nat) : Nat := n % 2 ^ 64

/-- Reinterpret a (wrapped) `u64` bit pattern as an `i64` (`as i64`). -/
def u64_as_i64 (n : Nat) : Int :=
  if n < 2 ^ 63 then (n : Int) else (n : Int) - 2 ^ 64

/-- Wrap-around of a mathematical integer into the `i64` range. -/
def i64_wrap (z : Int) : Int := (z + 2 ^ 63) % 2 ^ 64 - 2 ^ 63

/-- Addition on `i64` with wrap-around. -/
def i64_add (a b : Int) : Int := i64_wrap (a + b)

/-- Subtraction on `i64` with wrap-around. -/
def i64_sub (a b : Int) : Int := i64_wrap (a - b)

/-! ## Use-site scanning (`find_arg_uses`, `matches_input_arg`) -/

/-- Translation of `matches!(arg, Argument::Input(idx) if idx as usize == arg_idx)`. -/
def matches_input_arg (arg : Argument) (arg_idx : Nat) : Bool :=
  match arg with
  | .input idx => idx = arg_idx
  | _ => false

/-- Rust `Iterator::position`: index of the first element satisfying `p`. -/
def position (p : α → Bool) : List α → Option Nat
  | [] => none
  | a :: l => if p a then some 0 else (position p l).map (· + 1)

/-- The per-command body of the `filter_map` closure inside
`find_arg_uses`: the optional slot (itself optional) at which `arg_idx`
is used by this command. -/
def arg_use (arg_idx : Nat) : Command → Option (Option Nat)
  | .moveCall move_call =>
      (position (fun elem => matches_input_arg elem arg_idx)
        move_call.arguments).map some
  | .transferObjects transfer_objects =>
      (position (fun elem => matches_input_arg elem arg_idx)
        transfer_objects.objects).map some
  | .splitCoins split_coins =>
      if matches_input_arg split_coins.coin arg_idx then some none else none
  | .mergeCoins merge_coins =>
      if matches_input_arg merge_coins.coin arg_idx then some none
      else
        (position (fun elem => matches_input_arg elem arg_idx)
          merge_coins.coins_to_merge).map some
  | .publish _ => none
  | .makeMoveVector make_move_vector =>
      (position (fun elem => matches_input_arg elem arg_idx)
        make_move_vector.elements).map some
  | .upgrade upgrade =>
      if matches_input_arg upgrade.ticket arg_idx then some none else none

/-- Translation of `find_arg_uses`: all commands where input `arg_idx` is used, each with
the optional index of the use inside that command. -/
def find_arg_uses (arg_idx : Nat) (commands : List Command) :
    List (Command × Option Nat) :=
  commands.filterMap (fun command =>
    (arg_use arg_idx command).map (fun x => (command, x)))

/-! ## Object reference resolution -/

/-- Translation of `resolve_object_reference`: fetch by exact version when one is given,
otherwise the latest version; then check any caller-supplied digest. -/
def resolve_object_reference (reader : StateReader)
    (unresolved_object_reference : UnresolvedObjectReference) :
    Except Error ObjectRef :=
  let object_id := unresolved_object_reference.object_id
  let fetched : Except Error (Nat × Digest) :=
    match unresolved_object_reference.version with
    | some version =>
        match reader.get_object_by_key object_id version with
        | .error e => .error e
        | .ok none => .error (.notFound object_id (some version))
        | .ok (some object) => .ok (object.version, object.digest)
    | none =>
        match reader.get_object object_id with
        | .error e => .error e
        | .ok none => .error (.notFound object_id none)
        | .ok (some object) => .ok (object.version, object.digest)
  match fetched with
  | .error e => .error e
  | .ok (v, d) =>
      if (match unresolved_object_reference.digest with
          | some digest => digest ≠ d
          | none => false : Bool) then
        .error (.invalidInput "provided digest does not match")
      else
        .ok (object_id, v, d)

/-! ## Shared-object mutability inference and argument resolution -/

/-- Lookup of a called function's signature through the called-packages
map: package, then module, then function (`called_packages.get`, then
`normalized_modules.get`, then `functions.get`). -/
def lookup_function (called_packages : CalledPackages)
    (move_call : MoveCall) : Option NormalizedFunction :=
  ((called_packages.lookup move_call.package).bind
    (fun package => package.normalized_modules.lookup move_call.module)).bind
    (fun module => module.functions.lookup move_call.function)

/-- Whether a normalized parameter type forces mutable access:
`Type::MutableReference(_) | Type::Struct { .. }`. -/
def is_mutable_param (t : MoveNormalizedType) : Bool :=
  match t with
  | .mutableReference _ => true
  | .struct _ _ _ => true
  | _ => false

/-- The `for (command, idx) in find_arg_uses(..)` loop of `resolve_arg`:
starting from `mutable = false`, fold over the use sites, breaking out as
soon as `mutable` becomes true. -/
def shared_object_mutability (called_packages : CalledPackages) :
    List (Command × Option Nat) → Except Error Bool
  | [] => .ok false
  | (command, idx) :: rest =>
      match command, idx with
      | .moveCall move_call, some i =>
          match lookup_function called_packages move_call with
          | none => .error (.invalidInput "unable to find function")
          | some function =>
              match function.parameters[i]? with
              | none => .error (.invalidInput "invalid input parameter")
              | some arg_type =>
                  if is_mutable_param arg_type then .ok true
                  else shared_object_mutability called_packages rest
      | .splitCoins _, _ => .ok true
      | .mergeCoins _, _ => .ok true
      | .makeMoveVector _, _ => .ok true
      | _, _ => shared_object_mutability called_packages rest

/-- Translation of `resolve_arg`: resolve one unresolved input argument, given the full
command list and the argument's own positional index. -/
def resolve_arg (reader : StateReader) (called_packages : CalledPackages)
    (commands : List Command) (arg : UnresolvedInputArgument)
    (arg_idx : Nat) : Except Error CallArg :=
  match arg with
  | .pure value => .ok (.pure value)
  | .immutableOrOwned obj_ref =>
      match resolve_object_reference reader obj_ref with
      | .error e => .error e
      | .ok r => .ok (.object (.immOrOwnedObject r))
  | .shared object_id _ _ =>
      match reader.get_object object_id with
      | .error e => .error e
      | .ok none => .error (.notFound object_id none)
      | .ok (some object) =>
          match object.owner with
          | .shared initial_shared_version =>
              match shared_object_mutability called_packages
                  (find_arg_uses arg_idx commands) with
              | .error e => .error e
              | .ok mutable =>
                  .ok (.object
                    (.sharedObject object_id initial_shared_version mutable))
          | _ => .error (.invalidInput "object is not a shared object")
  | .receiving obj_ref =>
      match resolve_object_reference reader obj_ref with
      | .error e => .error e
      | .ok r => .ok (.object (.receiving r))

/-! ## Transaction body and gas data -/

/-- Translation of `resolve_ptb`: resolve every input in order (each gets the full command
list and its own index); commands convert structurally (shape preserved). -/
def resolve_ptb (reader : StateReader) (called_packages : CalledPackages)
    (unresolved_ptb : UnresolvedProgrammableTransaction) :
    Except Error ProgrammableTransaction :=
  match unresolved_ptb.inputs.enum.mapM
      (fun p => resolve_arg reader called_packages unresolved_ptb.commands
        p.2 p.1) with
  | .error e => .error e
  | .ok inputs => .ok { inputs := inputs, commands := unresolved_ptb.commands }

/-- Translation of `resolve_unresolved_transaction`: assemble gas data (explicit payment
resolved through `resolve_object_reference`, defaults otherwise), then
resolve the transaction body. -/
def resolve_unresolved_transaction (reader : StateReader)
    (called_packages : CalledPackages) (reference_gas_price : Nat)
    (max_gas_budget : Nat) (unresolved_transaction : UnresolvedTransaction) :
    Except Error TransactionData :=
  let sender := unresolved_transaction.sender
  let gas_data : Except Error GasData :=
    match unresolved_transaction.gas_payment with
    | some unresolved_gas_payment =>
        match unresolved_gas_payment.objects.mapM
            (fun unresolved => resolve_object_reference reader unresolved) with
        | .error e => .error e
        | .ok payment =>
            .ok { payment := payment
                  owner := unresolved_gas_payment.owner
                  price :=
                    unresolved_gas_payment.price.getD reference_gas_price
                  budget := unresolved_gas_payment.budget.getD max_gas_budget }
    | none =>
        .ok { payment := []
              owner := sender
              price := reference_gas_price
              budget := max_gas_budget }
  match gas_data with
  | .error e => .error e
  | .ok gas_data =>
      match resolve_ptb reader called_packages unresolved_transaction.ptb with
      | .error e => .error e
      | .ok ptb =>
          .ok { sender := sender
                gas_data := gas_data
                ptb := ptb
                expiration := unresolved_transaction.expiration }

/-! ## Budget estimation -/

/-- Modelled from the spec: `GasCostSummary::net_gas_usage` (its source is
outside this unit; only its caller is), returning as `i64` the value
`computation_cost + storage_cost - storage_rebate`, with the `u64`
additions and the `i64` subtraction wrapping as in the machine. -/
def net_gas_usage (gas_cost_summary : GasCostSummary) : Int :=
  i64_sub
    (u64_as_i64 (wrap64
      (gas_cost_summary.computation_cost + gas_cost_summary.storage_cost)))
    (u64_as_i64 (wrap64 gas_cost_summary.storage_rebate))

/-- Translation of `estimate_gas_budget_from_gas_cost`: the maximum of the computation
cost plus a safety overhead and the (clamped-at-zero) net gas usage plus
the same overhead, with `GAS_SAFE_OVERHEAD = 1000`. -/
def estimate_gas_budget_from_gas_cost (gas_cost_summary : GasCostSummary)
    (reference_gas_price : Nat) : Nat :=
  let GAS_SAFE_OVERHEAD : Nat := 1000
  let safe_overhead := wrap64 (GAS_SAFE_OVERHEAD * reference_gas_price)
  let computation_cost_with_overhead :=
    wrap64 (gas_cost_summary.computation_cost + safe_overhead)
  let gas_usage :=
    i64_add (net_gas_usage gas_cost_summary) (u64_as_i64 safe_overhead)
  max computation_cost_with_overhead
    (if gas_usage < 0 then 0 else gas_usage.toNat)

/-! ## Gas coin selection -/

/-- The `filter_map` closure of `select_gas` that fetches a candidate
object, turning any read failure or missing object into `none`
(`get_object(..).ok().flatten()`). -/
def fetch_gas_object (reader : StateReader) (info : OwnedObjectInfo) :
    Option Object :=
  match reader.get_object info.object_id with
  | .ok (some object) => some object
  | _ => none

/-- The `filter_map` closure of `select_gas` that parses a fetched object
as a gas coin, pairing its computed object reference with its value
(`GasCoin::try_from(&object).ok().map(..)`). -/
def parse_gas_coin (object : Object) : Option (ObjectRef × Nat) :=
  object.as_gas_coin.map
    (fun value => ((object.id, object.version, object.digest), value))

/-- The eligible-coin pipeline of `select_gas`: filter the owner's objects
to gas-coin type, exclude the transaction's own input object ids, fetch
each object (silently dropping fetch failures), parse it as a gas coin
(silently dropping parse failures), and cap the result at the maximum
number of payment objects. -/
def eligible_gas_coins (reader : StateReader) (input_objects : List ObjectId)
    (infos : List OwnedObjectInfo) (max_gas_payment_objects : Nat) :
    List (ObjectRef × Nat) :=
  ((((infos.filter (fun info => info.type_is_gas_coin)).filter
      (fun info => ! input_objects.contains info.object_id)).filterMap
      (fetch_gas_object reader)).filterMap parse_gas_coin).take
    max_gas_payment_objects

/-- Translation of `select_gas`: accumulate the eligible coins (reference and value) in
iterator order, then succeed exactly when the accumulated value covers the
budget. -/
def select_gas (reader : StateReader) (owner : Address) (budget : Nat)
    (max_gas_payment_objects : Nat) (input_objects : List ObjectId) :
    Except Error (List ObjectRef) :=
  match reader.account_owned_objects_info_iter owner with
  | .error e => .error e
  | .ok infos =>
      let gas_coins :=
        eligible_gas_coins reader input_objects infos max_gas_payment_objects
      let selected_gas := gas_coins.map (fun p => p.1)
      let selected_gas_value :=
        gas_coins.foldl (fun acc p => wrap64 (acc + p.2)) 0
      if budget ≤ selected_gas_value then .ok selected_gas
      else .error .insufficientResources

/-! ## Specification-side definitions

These definitions restate, in the words of the specification, what the
code above is claimed to compute; the theorems below compare them with
the code. -/

/-- Whether the parameter lookup a MoveCall use site needs will succeed:
the package, module and function are all present and the function has a
parameter at the used slot. -/
def move_call_lookup_ok (called_packages : CalledPackages)
    (use : Command × Option Nat) : Bool :=
  match use with
  | (.moveCall move_call, some i) =>
      ((lookup_function called_packages move_call).bind
        (fun function => function.parameters[i]?)).isSome
  | _ => true

/-- The independent mutability contribution of one use site, as the
specification words it: a MoveCall use at a concrete slot contributes
true exactly when the called function's parameter at that slot is a
mutable reference or a struct taken by value; SplitCoins, MergeCoins and
MakeMoveVector uses contribute true unconditionally; all other uses
contribute false. -/
def use_mutability_contribution (called_packages : CalledPackages)
    (use : Command × Option Nat) : Bool :=
  match use with
  | (.moveCall move_call, some i) =>
      match (lookup_function called_packages move_call).bind
          (fun function => function.parameters[i]?) with
      | some arg_type => is_mutable_param arg_type
      | none => false
  | (.splitCoins _, _) => true
  | (.mergeCoins _, _) => true
  | (.makeMoveVector _, _) => true
  | _ => false

/-- The fetch performed by `resolve_object_reference`: by exact version
when the caller supplied one, otherwise the latest version. -/
def fetched_object (reader : StateReader) (u : UnresolvedObjectReference) :
    Except Error (Option Object) :=
  match u.version with
  | some version => reader.get_object_by_key u.object_id version
  | none => reader.get_object u.object_id

/-- The scanned `Argument` fields of a command: exactly the fields
`find_arg_uses` inspects for each command kind. -/
def command_scanned_arguments : Command → List Argument
  | .moveCall c => c.arguments
  | .transferObjects c => c.objects
  | .splitCoins c => [c.coin]
  | .mergeCoins c => c.coin :: c.coins_to_merge
  | .publish _ => []
  | .makeMoveVector c => c.elements
  | .upgrade c => [c.ticket]

/-! ## Concrete test fixtures

A small deterministic chain state used to instantiate the theorems
below on concrete inputs. -/

/-- A deterministic state reader: object 5 is shared, object 6 is owned,
objects 11, 12 and 13 are gas coins of values 100, 50 and 30, object 14
fails to read, object 15 is not parseable as a gas coin. Owner 7 owns the
three clean gas coins in order; owner 8 additionally lists the two bad
candidates in the middle. -/
def sampleReader : StateReader where
  get_object := fun id =>
    if id = 5 then .ok (some ⟨5, 3, 42, .shared 2, none⟩)
    else if id = 6 then .ok (some ⟨6, 4, 44, .addressOwner 7, none⟩)
    else if id = 11 then .ok (some ⟨11, 1, 101, .addressOwner 7, some 100⟩)
    else if id = 12 then .ok (some ⟨12, 1, 102, .addressOwner 7, some 50⟩)
    else if id = 13 then .ok (some ⟨13, 1, 103, .addressOwner 7, some 30⟩)
    else if id = 14 then .error (.internal "read failure")
    else if id = 15 then .ok (some ⟨15, 1, 105, .addressOwner 7, none⟩)
    else .ok none
  get_object_by_key := fun id version =>
    if id = 6 ∧ version = 4 then .ok (some ⟨6, 4, 44, .addressOwner 7, none⟩)
    else .ok none
  account_owned_objects_info_iter := fun owner =>
    if owner = 7 then .ok [⟨11, true⟩, ⟨12, true⟩, ⟨13, true⟩]
    else if owner = 8 then
      .ok [⟨11, true⟩, ⟨14, true⟩, ⟨15, true⟩, ⟨12, true⟩, ⟨13, true⟩]
    else .ok []

/-- A called-packages table: package 99, module `m`, with `f` taking a
mutable reference and `g` taking a plain `u64` value. -/
def samplePackages : CalledPackages :=
  [(99, ⟨[("m", ⟨[("f", ⟨[.mutableReference .u64]⟩),
    ("g", ⟨[.u64]⟩)]⟩)]⟩)]

/-- A MoveCall that uses input 0 at two distinct argument slots. -/
def dupMoveCall : MoveCall := ⟨99, "m", "f", [.input 0, .input 0]⟩

/-! ## Helper lemmas -/

theorem matches_input_arg_eq_true (arg : Argument) (arg_idx : Nat) :
    matches_input_arg arg arg_idx = true ↔ arg = .input arg_idx := by
  cases arg <;> simp [matches_input_arg]

theorem position_eq_some_iff (p : α → Bool) (l : List α) (j : Nat) :
    position p l = some j ↔
      (∃ a, l[j]? = some a ∧ p a = true) ∧
        ∀ k, k < j → ∀ b, l[k]? = some b → p b = false := by
  induction l generalizing j with
  | nil => simp [position]
  | cons a l ih =>
      cases hp : p a with
      | true =>
          cases j with
          | zero =>
              constructor
              · intro
                exact ⟨⟨a, by simp, hp⟩, fun k hk => absurd hk (by omega)⟩
              · intro
                simp [position, hp]
          | succ j =>
              constructor
              · intro h
                simp [position, hp] at h
              · rintro ⟨-, hmin⟩
                have h0 := hmin 0 (Nat.succ_pos j) a (by simp)
                simp [hp] at h0
      | false =>
          cases j with
          | zero =>
              constructor
              · intro h
                simp only [position, hp, Bool.false_eq_true, if_false] at h
                rcases Option.map_eq_some'.1 h with ⟨j₀, -, hj⟩
                exact absurd hj (by omega)
              · rintro ⟨⟨b, hb, hpb⟩, -⟩
                simp only [List.getElem?_cons_zero, Option.some.injEq] at hb
                subst hb
                simp [hpb] at hp
          | succ j =>
              constructor
              · intro h
                simp only [position, hp, Bool.false_eq_true, if_false] at h
                rcases Option.map_eq_some'.1 h with ⟨j₀, hj₀, hj⟩
                have hjj : j₀ = j := by omega
                rw [hjj] at hj₀
                rcases (ih j).1 hj₀ with ⟨⟨b, hb, hpb⟩, hmin⟩
                refine ⟨⟨b, by simpa using hb, hpb⟩, ?_⟩
                intro k hk c hc
                cases k with
                | zero =>
                    simp only [List.getElem?_cons_zero,
                      Option.some.injEq] at hc
                    subst hc
                    exact hp
                | succ k =>
                    exact hmin k (by omega) c (by simpa using hc)
              · rintro ⟨⟨b, hb, hpb⟩, hmin⟩
                have hj : position p l = some j := by
                  refine (ih j).2 ⟨⟨b, by simpa using hb, hpb⟩, ?_⟩
                  intro k hk c hc
                  exact hmin (k + 1) (by omega) c (by simpa using hc)
                simp [position, hp, hj]

theorem position_eq_none_iff (p : α → Bool) (l : List α) :
    position p l = none ↔ ∀ a ∈ l, p a = false := by
  induction l with
  | nil => simp [position]
  | cons a l ih =>
      cases hp : p a with
      | true => simp [position, hp]
      | false => simp [position, hp, ih]

theorem shared_object_mutability_eq_any (called_packages : CalledPackages)
    (uses : List (Command × Option Nat))
    (h : ∀ u ∈ uses, move_call_lookup_ok called_packages u = true) :
    shared_object_mutability called_packages uses =
      .ok (uses.any (use_mutability_contribution called_packages)) := by
  induction uses with
  | nil => rfl
  | cons u rest ih =>
      have hu := h u (List.mem_cons_self u rest)
      have hrest : ∀ v ∈ rest, move_call_lookup_ok called_packages v = true :=
        fun v hv => h v (List.mem_cons_of_mem u hv)
      obtain ⟨command, idx⟩ := u
      cases command with
      | moveCall move_call =>
          cases idx with
          | none =>
              simpa [shared_object_mutability, use_mutability_contribution]
                using ih hrest
          | some i =>
              simp only [move_call_lookup_ok, Option.isSome_iff_exists] at hu
              rcases hu with ⟨arg_type, harg⟩
              rcases Option.bind_eq_some.1 harg with ⟨function, hfn, hparam⟩
              cases hmut : is_mutable_param arg_type with
              | true =>
                  simp [shared_object_mutability, hfn, hparam, hmut,
                    use_mutability_contribution, harg]
              | false =>
                  simp [shared_object_mutability, hfn, hparam, hmut,
                    use_mutability_contribution, harg, ih hrest]
      | transferObjects c =>
          simpa [shared_object_mutability, use_mutability_contribution]
            using ih hrest
      | splitCoins c => simp [shared_object_mutability,
          use_mutability_contribution]
      | mergeCoins c => simp [shared_object_mutability,
          use_mutability_contribution]
      | publish c =>
          simpa [shared_object_mutability, use_mutability_contribution]
            using ih hrest
      | makeMoveVector c => simp [shared_object_mutability,
          use_mutability_contribution]
      | upgrade c =>
          simpa [shared_object_mutability, use_mutability_contribution]
            using ih hrest

theorem any_of_perm {l₁ l₂ : List α} (f : α → Bool) (h : List.Perm l₁ l₂) :
    l₁.any f = l₂.any f := by
  cases h1 : l₁.any f with
  | true =>
      rcases List.any_eq_true.1 h1 with ⟨x, hx, hfx⟩
      exact (List.any_eq_true.2 ⟨x, h.mem_iff.1 hx, hfx⟩).symm
  | false =>
      cases h2 : l₂.any f with
      | false => rfl
      | true =>
          rcases List.any_eq_true.1 h2 with ⟨x, hx, hfx⟩
          have := List.any_eq_true.2 ⟨x, h.mem_iff.2 hx, hfx⟩
          rw [h1] at this
          exact absurd this (by simp)

theorem position_input_iff (arg_idx : Nat) (l : List Argument) (j : Nat) :
    position (fun elem => matches_input_arg elem arg_idx) l = some j ↔
      l[j]? = some (.input arg_idx) ∧
        ∀ k, k < j → l[k]? ≠ some (.input arg_idx) := by
  rw [position_eq_some_iff]
  constructor
  · rintro ⟨⟨a, ha, hpa⟩, hmin⟩
    rw [matches_input_arg_eq_true] at hpa
    subst hpa
    refine ⟨ha, fun k hk hcontra => ?_⟩
    have := hmin k hk _ hcontra
    simp [matches_input_arg] at this
  · rintro ⟨hj, hmin⟩
    refine ⟨⟨.input arg_idx, hj, (matches_input_arg_eq_true _ _).2 rfl⟩,
      fun k hk b hb => ?_⟩
    cases hpb : matches_input_arg b arg_idx with
    | false => rfl
    | true =>
        rw [matches_input_arg_eq_true] at hpb
        subst hpb
        exact absurd hb (hmin k hk)

theorem position_input_none_iff (arg_idx : Nat) (l : List Argument) :
    position (fun elem => matches_input_arg elem arg_idx) l = none ↔
      Argument.input arg_idx ∉ l := by
  rw [position_eq_none_iff]
  constructor
  · intro h hmem
    have := h _ hmem
    simp [matches_input_arg] at this
  · intro h a ha
    cases hpa : matches_input_arg a arg_idx with
    | false => rfl
    | true =>
        rw [matches_input_arg_eq_true] at hpa
        subst hpa
        exact absurd ha h

theorem fetch_gas_object_eq_some {reader : StateReader}
    {info : OwnedObjectInfo} {object : Object} :
    fetch_gas_object reader info = some object ↔
      reader.get_object info.object_id = .ok (some object) := by
  unfold fetch_gas_object
  cases h : reader.get_object info.object_id with
  | error e => simp
  | ok oo => cases oo <;> simp

theorem foldl_wrap_le_sum (l : List (ObjectRef × Nat)) :
    ∀ a : Nat, l.foldl (fun acc p => wrap64 (acc + p.2)) a ≤
      a + (l.map Prod.snd).sum := by
  induction l with
  | nil => intro a; simp
  | cons p l ih =>
      intro a
      have h1 : wrap64 (a + p.2) ≤ a + p.2 := Nat.mod_le _ _
      calc (p :: l).foldl (fun acc q => wrap64 (acc + q.2)) a
          = l.foldl (fun acc q => wrap64 (acc + q.2)) (wrap64 (a + p.2)) := rfl
        _ ≤ wrap64 (a + p.2) + (l.map Prod.snd).sum := ih _
        _ ≤ a + p.2 + (l.map Prod.snd).sum := by omega
        _ = a + ((p :: l).map Prod.snd).sum := by simp; omega

theorem matches_input_arg_eq_false (arg : Argument) (arg_idx : Nat) :
    matches_input_arg arg arg_idx = false ↔ arg ≠ .input arg_idx := by
  constructor
  · intro h hc
    rw [(matches_input_arg_eq_true _ _).2 hc] at h
    cases h
  · intro h
    cases hm : matches_input_arg arg arg_idx with
    | false => rfl
    | true => exact absurd ((matches_input_arg_eq_true _ _).1 hm) h

theorem sample_reader_coherent :
    ∀ id object, sampleReader.get_object id = .ok (some object) →
      object.id = id := by
  intro id object h
  simp only [sampleReader] at h
  split_ifs at h with h5 h6 h11 h12 h13 h14 h15
  all_goals
    simp only [Except.ok.injEq, Option.some.injEq, reduceCtorEq] at h
  · subst h; exact h5.symm
  · subst h; exact h6.symm
  · subst h; exact h11.symm
  · subst h; exact h12.symm
  · subst h; exact h13.symm
  · subst h; exact h15.symm

theorem wrap64_eq_of_lt {n : Nat} (h : n < 2 ^ 64) : wrap64 n = n :=
  Nat.mod_eq_of_lt h

theorem u64_as_i64_of_lt {n : Nat} (h : n < 2 ^ 63) : u64_as_i64 n = n := by
  unfold u64_as_i64
  rw [if_pos h]

theorem i64_wrap_eq_self {z : Int} (hl : -(2 ^ 63) ≤ z) (hu : z < 2 ^ 63) :
    i64_wrap z = z := by
  unfold i64_wrap
  have hp : ((2 : Int) ^ 64) = (2 : Int) ^ 63 + (2 : Int) ^ 63 := by norm_num
  have h : (z + 2 ^ 63) % 2 ^ 64 = z + 2 ^ 63 :=
    Int.emod_eq_of_lt (by omega) (by omega)
  omega

/-! ## Claim theorems -/

/-- C10: an argument counts as a use of an input only when it is literally
an `Input` argument carrying exactly that positional index; `GasCoin`,
`Result` and `NestedResult` arguments never match, and every use site
reported by the scanner corresponds to a literal `Input` occurrence of
that index among the command's scanned argument fields, so mutability is
never attributed through a prior command's result or the gas coin. -/
theorem matches_input_arg_only_literal_input (arg_idx i j k : Nat) :
    matches_input_arg .gasCoin arg_idx = false ∧
    matches_input_arg (.result i) arg_idx = false ∧
    matches_input_arg (.nestedResult j k) arg_idx = false ∧
    (matches_input_arg (.input i) arg_idx = true ↔ i = arg_idx) ∧
    ∀ commands command slot,
      (command, slot) ∈ find_arg_uses arg_idx commands →
      Argument.input arg_idx ∈ command_scanned_arguments command := by
  refine ⟨rfl, rfl, rfl, by simp [matches_input_arg], ?_⟩
  intro commands command slot hmem
  rcases List.mem_filterMap.1 hmem with ⟨c, -, hmap⟩
  rcases Option.map_eq_some'.1 hmap with ⟨s, hs, heq⟩
  obtain ⟨rfl, rfl⟩ : c = command ∧ s = slot := by
    refine ⟨congrArg Prod.fst heq, congrArg Prod.snd heq⟩
  cases c with
  | moveCall mc =>
      rcases Option.map_eq_some'.1 hs with ⟨p, hpos, -⟩
      exact List.getElem?_mem ((position_input_iff _ _ _).1 hpos).1
  | transferObjects t =>
      rcases Option.map_eq_some'.1 hs with ⟨p, hpos, -⟩
      exact List.getElem?_mem ((position_input_iff _ _ _).1 hpos).1
  | makeMoveVector v =>
      rcases Option.map_eq_some'.1 hs with ⟨p, hpos, -⟩
      exact List.getElem?_mem ((position_input_iff _ _ _).1 hpos).1
  | splitCoins sc =>
      simp only [arg_use] at hs
      cases hm : matches_input_arg sc.coin arg_idx with
      | false => simp [hm] at hs
      | true =>
          rw [matches_input_arg_eq_true] at hm
          simp [command_scanned_arguments, hm]
  | mergeCoins m =>
      simp only [arg_use] at hs
      cases hm : matches_input_arg m.coin arg_idx with
      | false =>
          rw [hm] at hs
          simp only [Bool.false_eq_true, if_false] at hs
          rcases Option.map_eq_some'.1 hs with ⟨p, hpos, -⟩
          exact List.mem_cons_of_mem _
            (List.getElem?_mem ((position_input_iff _ _ _).1 hpos).1)
      | true =>
          rw [matches_input_arg_eq_true] at hm
          simp [command_scanned_arguments, hm]
  | publish p => simp [arg_use] at hs
  | upgrade u =>
      simp only [arg_use] at hs
      cases hm : matches_input_arg u.ticket arg_idx with
      | false => simp [hm] at hs
      | true =>
          rw [matches_input_arg_eq_true] at hm
          simp [command_scanned_arguments, hm]

/-- C10 witness: a concrete application of the characterization. -/
theorem matches_input_arg_only_literal_input_witness :
    matches_input_arg .gasCoin 0 = false ∧
    Argument.input 0 ∈ command_scanned_arguments
      (.splitCoins ⟨.input 0, []⟩) := by
  have h := matches_input_arg_only_literal_input 0 0 0 0
  exact ⟨h.1, h.2.2.2.2 [.splitCoins ⟨.input 0, []⟩]
    (.splitCoins ⟨.input 0, []⟩) none (by decide)⟩

/-- C1: for a shared input whose owner is `Shared` and whose MoveCall use
sites all have resolvable parameters, the computed mutable flag is the
logical OR of the per-use-site contributions (MoveCall at a slot: mutable
reference or struct by value; SplitCoins, MergeCoins, MakeMoveVector:
always true; others: false), and that OR is invariant under any
permutation of the scan order. -/
theorem shared_input_mutability_is_or_of_contributions
    (reader : StateReader) (called_packages : CalledPackages)
    (commands : List Command) (object_id : ObjectId) (isv : Nat)
    (caller_version : Option Nat) (caller_mutable : Option Bool)
    (arg_idx : Nat) (object : Object)
    (hget : reader.get_object object_id = .ok (some object))
    (howner : object.owner = .shared isv)
    (hlookup : ∀ u ∈ find_arg_uses arg_idx commands,
      move_call_lookup_ok called_packages u = true) :
    resolve_arg reader called_packages commands
        (.shared object_id caller_version caller_mutable) arg_idx =
      .ok (.object (.sharedObject object_id isv
        ((find_arg_uses arg_idx commands).any
          (use_mutability_contribution called_packages)))) ∧
    ∀ uses : List (Command × Option Nat),
      List.Perm uses (find_arg_uses arg_idx commands) →
      uses.any (use_mutability_contribution called_packages) =
        (find_arg_uses arg_idx commands).any
          (use_mutability_contribution called_packages) := by
  refine ⟨?_, fun uses hperm => any_of_perm _ hperm⟩
  simp [resolve_arg, hget, howner,
    shared_object_mutability_eq_any called_packages _ hlookup]

/-- C1 witness: a shared object used by a MoveCall whose parameter at the
used slot is a mutable reference resolves with `mutable = true`. -/
theorem shared_input_mutability_witness :
    resolve_arg sampleReader samplePackages
        [.moveCall ⟨99, "m", "f", [.input 0]⟩]
        (.shared 5 (some 9) (some false)) 0 =
      .ok (.object (.sharedObject 5 2 true)) := by
  have h := (shared_input_mutability_is_or_of_contributions sampleReader
    samplePackages [.moveCall ⟨99, "m", "f", [.input 0]⟩] 5 2 (some 9)
    (some false) 0 ⟨5, 3, 42, .shared 2, none⟩ (by decide) rfl (by decide)).1
  rw [h]
  decide

/-- C8: resolving a `Shared` unresolved input ignores the caller-asserted
initial version and mutability flag; the resolved argument takes its
initial shared version from the fetched object's `Shared` owner and its
mutable flag from the use-site scan, and a fetched object whose owner is
not `Shared` fails with `InvalidInput`. -/
theorem shared_input_ignores_caller_fields (reader : StateReader)
    (called_packages : CalledPackages) (commands : List Command)
    (object_id : ObjectId) (v₁ v₂ : Option Nat) (m₁ m₂ : Option Bool)
    (arg_idx : Nat) :
    (resolve_arg reader called_packages commands
        (.shared object_id v₁ m₁) arg_idx =
      resolve_arg reader called_packages commands
        (.shared object_id v₂ m₂) arg_idx) ∧
    (∀ object isv mutable,
      reader.get_object object_id = .ok (some object) →
      object.owner = .shared isv →
      shared_object_mutability called_packages
          (find_arg_uses arg_idx commands) = .ok mutable →
      resolve_arg reader called_packages commands
          (.shared object_id v₁ m₁) arg_idx =
        .ok (.object (.sharedObject object_id isv mutable))) ∧
    (∀ object,
      reader.get_object object_id = .ok (some object) →
      (∀ isv, object.owner ≠ .shared isv) →
      resolve_arg reader called_packages commands
          (.shared object_id v₁ m₁) arg_idx =
        .error (.invalidInput "object is not a shared object")) := by
  refine ⟨rfl, ?_, ?_⟩
  · intro object isv mutable hget howner hmut
    simp [resolve_arg, hget, howner, hmut]
  · intro object hget howner
    cases hO : object.owner with
    | shared isv => exact absurd hO (howner isv)
    | addressOwner a => simp [resolve_arg, hget, hO]
    | objectOwner o => simp [resolve_arg, hget, hO]
    | immutable => simp [resolve_arg, hget, hO]

/-- C8 witness: concrete independence from caller fields, extraction of
the on-chain initial shared version, and the non-shared failure. -/
theorem shared_input_ignores_caller_fields_witness :
    (resolve_arg sampleReader samplePackages []
        (.shared 5 (some 1) (some true)) 0 =
      resolve_arg sampleReader samplePackages []
        (.shared 5 (some 9) (some false)) 0) ∧
    resolve_arg sampleReader samplePackages []
        (.shared 5 (some 1) (some true)) 0 =
      .ok (.object (.sharedObject 5 2 false)) ∧
    resolve_arg sampleReader samplePackages []
        (.shared 6 (some 1) (some true)) 0 =
      .error (.invalidInput "object is not a shared object") := by
  have h5 := shared_input_ignores_caller_fields sampleReader samplePackages
    [] 5 (some 1) (some 9) (some true) (some false) 0
  have h6 := shared_input_ignores_caller_fields sampleReader samplePackages
    [] 6 (some 1) (some 9) (some true) (some false) 0
  refine ⟨h5.1, h5.2.1 ⟨5, 3, 42, .shared 2, none⟩ 2 false (by decide) rfl
    (by decide), h6.2.2 ⟨6, 4, 44, .addressOwner 7, none⟩ (by decide) ?_⟩
  intro isv h
  cases h

/-- C5: object reference resolution fetches exactly the supplied version
(failing `NotFound(id, version)` when absent) or else the latest version
(failing `NotFound(id)` when absent); a caller-supplied digest differing
from the fetched digest fails `InvalidInput` in either mode, and
otherwise the verified triple carries the fetched version and digest. -/
theorem resolve_object_reference_spec (reader : StateReader)
    (u : UnresolvedObjectReference) :
    (∀ version, u.version = some version →
      reader.get_object_by_key u.object_id version = .ok none →
      resolve_object_reference reader u =
        .error (.notFound u.object_id (some version))) ∧
    (u.version = none → reader.get_object u.object_id = .ok none →
      resolve_object_reference reader u =
        .error (.notFound u.object_id none)) ∧
    (∀ object digest, fetched_object reader u = .ok (some object) →
      u.digest = some digest → digest ≠ object.digest →
      resolve_object_reference reader u =
        .error (.invalidInput "provided digest does not match")) ∧
    (∀ object, fetched_object reader u = .ok (some object) →
      (u.digest = none ∨ u.digest = some object.digest) →
      resolve_object_reference reader u =
        .ok (u.object_id, object.version, object.digest)) := by
  refine ⟨?_, ?_, ?_, ?_⟩
  · intro version hv hnone
    simp [resolve_object_reference, hv, hnone]
  · intro hv hnone
    simp [resolve_object_reference, hv, hnone]
  · intro object digest hfetch hdg hne
    cases hv : u.version with
    | some version =>
        simp only [fetched_object, hv] at hfetch
        simp [resolve_object_reference, hv, hfetch, hdg, hne]
    | none =>
        simp only [fetched_object, hv] at hfetch
        simp [resolve_object_reference, hv, hfetch, hdg, hne]
  · intro object hfetch hdg
    cases hv : u.version with
    | some version =>
        simp only [fetched_object, hv] at hfetch
        rcases hdg with hdg | hdg <;>
          simp [resolve_object_reference, hv, hfetch, hdg]
    | none =>
        simp only [fetched_object, hv] at hfetch
        rcases hdg with hdg | hdg <;>
          simp [resolve_object_reference, hv, hfetch, hdg]

/-- C5 witness: concrete success, not-found and digest-mismatch cases. -/
theorem resolve_object_reference_spec_witness :
    resolve_object_reference sampleReader ⟨6, some 4, some 44⟩ =
      .ok (6, 4, 44) ∧
    resolve_object_reference sampleReader ⟨21, some 3, none⟩ =
      .error (.notFound 21 (some 3)) ∧
    resolve_object_reference sampleReader ⟨6, some 4, some 99⟩ =
      .error (.invalidInput "provided digest does not match") := by
  refine ⟨(resolve_object_reference_spec sampleReader
      ⟨6, some 4, some 44⟩).2.2.2 ⟨6, 4, 44, .addressOwner 7, none⟩
      (by decide) (Or.inr rfl),
    (resolve_object_reference_spec sampleReader ⟨21, some 3, none⟩).1 3 rfl
      (by decide),
    (resolve_object_reference_spec sampleReader ⟨6, some 4, some 99⟩).2.2.1
      ⟨6, 4, 44, .addressOwner 7, none⟩ 99 (by decide) rfl (by decide)⟩

/-- C7: when an explicit gas payment is present, the resolved transaction's
gas data uses the resolved payment objects, the supplied owner, the
supplied price or else the reference gas price, and the supplied budget or
else the protocol maximum; with no gas payment it is empty payment, the
sender as owner, the reference gas price, and the protocol maximum as a
placeholder budget. -/
theorem gas_data_assembly_spec (reader : StateReader)
    (called_packages : CalledPackages)
    (reference_gas_price max_gas_budget : Nat)
    (utx : UnresolvedTransaction) :
    (∀ gp td, utx.gas_payment = some gp →
      resolve_unresolved_transaction reader called_packages
          reference_gas_price max_gas_budget utx = .ok td →
      ∃ payment,
        gp.objects.mapM
            (fun unresolved => resolve_object_reference reader unresolved) =
          .ok payment ∧
        td.gas_data = ⟨payment, gp.owner,
          gp.price.getD reference_gas_price,
          gp.budget.getD max_gas_budget⟩) ∧
    (∀ td, utx.gas_payment = none →
      resolve_unresolved_transaction reader called_packages
          reference_gas_price max_gas_budget utx = .ok td →
      td.gas_data =
        ⟨[], utx.sender, reference_gas_price, max_gas_budget⟩) := by
  constructor
  · intro gp td hgp htd
    simp only [resolve_unresolved_transaction, hgp] at htd
    cases hm : gp.objects.mapM
        (fun unresolved => resolve_object_reference reader unresolved) with
    | error e =>
        rw [hm] at htd
        simp at htd
    | ok payment =>
        rw [hm] at htd
        cases hp : resolve_ptb reader called_packages utx.ptb with
        | error e =>
            rw [hp] at htd
            simp at htd
        | ok ptb =>
            rw [hp] at htd
            simp only [Except.ok.injEq] at htd
            subst htd
            exact ⟨payment, rfl, rfl⟩
  · intro td hgp htd
    simp only [resolve_unresolved_transaction, hgp] at htd
    cases hp : resolve_ptb reader called_packages utx.ptb with
    | error e =>
        rw [hp] at htd
        simp at htd
    | ok ptb =>
        rw [hp] at htd
        simp only [Except.ok.injEq] at htd
        subst htd
        rfl

/-- C7 witness: concrete explicit-payment and no-payment resolutions. -/
theorem gas_data_assembly_spec_witness :
    (∃ payment,
      List.mapM (fun u => resolve_object_reference sampleReader u)
          [(⟨6, some 4, none⟩ : UnresolvedObjectReference)] = .ok payment ∧
      (TransactionData.mk 7 ⟨[(6, 4, 44)], 9, 10, 500⟩ ⟨[], []⟩ 0).gas_data =
        ⟨payment, 9, 10, 500⟩) ∧
    (TransactionData.mk 7 ⟨[], 7, 10, 1000⟩ ⟨[], []⟩ 0).gas_data =
      ⟨[], 7, 10, 1000⟩ := by
  refine ⟨(gas_data_assembly_spec sampleReader [] 10 1000
      ⟨7, some ⟨[⟨6, some 4, none⟩], 9, none, some 500⟩, 0, ⟨[], []⟩⟩).1
      ⟨[⟨6, some 4, none⟩], 9, none, some 500⟩
      ⟨7, ⟨[(6, 4, 44)], 9, 10, 500⟩, ⟨[], []⟩, 0⟩ rfl (by decide),
    (gas_data_assembly_spec sampleReader [] 10 1000
      ⟨7, none, 0, ⟨[], []⟩⟩).2
      ⟨7, ⟨[], 7, 10, 1000⟩, ⟨[], []⟩, 0⟩ rfl (by decide)⟩

/-- C6: in the absence of overflow, the estimated budget equals
`max(A, B)` with `overhead = 1000 * reference_gas_price`,
`A = computation_cost + overhead` and
`B = max(0, computation_cost + storage_cost - storage_rebate) + overhead`,
and the estimate is never below `computation_cost + overhead`. -/
theorem estimate_gas_budget_spec (s : GasCostSummary) (rgp : Nat)
    (h1 : s.computation_cost + s.storage_cost + 1000 * rgp < 2 ^ 63)
    (h2 : s.storage_rebate < 2 ^ 63) :
    estimate_gas_budget_from_gas_cost s rgp =
      max (s.computation_cost + 1000 * rgp)
        (((s.computation_cost : Int) + s.storage_cost
            - s.storage_rebate).toNat + 1000 * rgp) ∧
    s.computation_cost + 1000 * rgp ≤
      estimate_gas_budget_from_gas_cost s rgp := by
  obtain ⟨c, st, r⟩ := s
  simp only at h1 h2 ⊢
  have hpow : (2 : Nat) ^ 63 < 2 ^ 64 := by norm_num
  have hmain : estimate_gas_budget_from_gas_cost ⟨c, st, r⟩ rgp =
      max (c + 1000 * rgp) (((c : Int) + st - r).toNat + 1000 * rgp) := by
    unfold estimate_gas_budget_from_gas_cost net_gas_usage i64_add i64_sub
    simp only
    rw [wrap64_eq_of_lt (show 1000 * rgp < 2 ^ 64 by omega)]
    rw [wrap64_eq_of_lt (show c + 1000 * rgp < 2 ^ 64 by omega)]
    rw [wrap64_eq_of_lt (show c + st < 2 ^ 64 by omega)]
    rw [wrap64_eq_of_lt (show r < 2 ^ 64 by omega)]
    rw [u64_as_i64_of_lt (show c + st < 2 ^ 63 by omega)]
    rw [u64_as_i64_of_lt (show r < 2 ^ 63 by omega)]
    rw [u64_as_i64_of_lt (show 1000 * rgp < 2 ^ 63 by omega)]
    push_cast
    have hw1 : i64_wrap ((c : Int) + st - r) = (c : Int) + st - r :=
      i64_wrap_eq_self (by omega) (by omega)
    rw [hw1]
    have hw2 : i64_wrap ((c : Int) + st - r + 1000 * (rgp : Int)) =
        (c : Int) + st - r + 1000 * (rgp : Int) :=
      i64_wrap_eq_self (by omega) (by omega)
    rw [hw2]
    by_cases hX : (c : Int) + st - r + 1000 * (rgp : Int) < 0
    · rw [if_pos hX]
      omega
    · rw [if_neg hX]
      omega
  exact ⟨hmain, hmain ▸ Nat.le_max_left _ _⟩

/-- C6 witness: a concrete cost summary with storage cost above rebate. -/
theorem estimate_gas_budget_spec_witness :
    estimate_gas_budget_from_gas_cost ⟨100, 50, 30⟩ 2 =
      max (100 + 1000 * 2) (((100 : Int) + 50 - 30).toNat + 1000 * 2) ∧
    100 + 1000 * 2 ≤ estimate_gas_budget_from_gas_cost ⟨100, 50, 30⟩ 2 :=
  estimate_gas_budget_spec ⟨100, 50, 30⟩ 2 (by norm_num) (by norm_num)

/-- C2 counterexample: a MoveCall consuming input 0 at two distinct
argument slots is reported with a single use (the first slot only), so the
scanner does not enumerate every argument slot that consumes the input. -/
theorem find_arg_uses_counterexample :
    dupMoveCall.arguments[0]? = some (.input 0) ∧
    dupMoveCall.arguments[1]? = some (.input 0) ∧
    find_arg_uses 0 [.moveCall dupMoveCall] =
      [(.moveCall dupMoveCall, some 0)] := by
  decide

/-- C2 (amended): the scanner reports, per command, at most one use: for
MoveCall, TransferObjects and MakeMoveVector the first position of the
input in the scanned list (none reported when the input is absent);
SplitCoins a slotless match on its coin field; MergeCoins a slotless
match when the target coin matches (checked first, short-circuiting)
and otherwise the first position in the coins-to-merge list; Upgrade a
slotless match on its ticket field; Publish never; and the use list is
the command list filtered through this per-command scan. -/
theorem find_arg_uses_table (arg_idx : Nat) :
    (∀ mc j, arg_use arg_idx (.moveCall mc) = some (some j) ↔
      (mc.arguments[j]? = some (.input arg_idx) ∧
        ∀ k, k < j → mc.arguments[k]? ≠ some (.input arg_idx))) ∧
    (∀ mc, arg_use arg_idx (.moveCall mc) = none ↔
      Argument.input arg_idx ∉ mc.arguments) ∧
    (∀ t j, arg_use arg_idx (.transferObjects t) = some (some j) ↔
      (t.objects[j]? = some (.input arg_idx) ∧
        ∀ k, k < j → t.objects[k]? ≠ some (.input arg_idx))) ∧
    (∀ v j, arg_use arg_idx (.makeMoveVector v) = some (some j) ↔
      (v.elements[j]? = some (.input arg_idx) ∧
        ∀ k, k < j → v.elements[k]? ≠ some (.input arg_idx))) ∧
    (∀ sc, arg_use arg_idx (.splitCoins sc) =
      if sc.coin = .input arg_idx then some none else none) ∧
    (∀ m, m.coin = .input arg_idx →
      arg_use arg_idx (.mergeCoins m) = some none) ∧
    (∀ m j, m.coin ≠ .input arg_idx →
      (arg_use arg_idx (.mergeCoins m) = some (some j) ↔
        (m.coins_to_merge[j]? = some (.input arg_idx) ∧
          ∀ k, k < j → m.coins_to_merge[k]? ≠ some (.input arg_idx)))) ∧
    (∀ u, arg_use arg_idx (.upgrade u) =
      if u.ticket = .input arg_idx then some none else none) ∧
    (∀ p, arg_use arg_idx (.publish p) = none) ∧
    (∀ commands, find_arg_uses arg_idx commands =
      commands.filterMap
        (fun c => (arg_use arg_idx c).map (fun s => (c, s)))) := by
  have hms : ∀ (o : Option Nat) (j : Nat),
      o.map some = some (some j) ↔ o = some j := by
    intro o j
    cases o <;> simp
  have hmn : ∀ (o : Option Nat), o.map some = none ↔ o = none := by
    intro o
    cases o <;> simp
  refine ⟨?_, ?_, ?_, ?_, ?_, ?_, ?_, ?_, fun p => rfl, fun commands => rfl⟩
  · intro mc j
    rw [show arg_use arg_idx (.moveCall mc) =
      (position (fun elem => matches_input_arg elem arg_idx)
        mc.arguments).map some from rfl, hms]
    exact position_input_iff arg_idx mc.arguments j
  · intro mc
    rw [show arg_use arg_idx (.moveCall mc) =
      (position (fun elem => matches_input_arg elem arg_idx)
        mc.arguments).map some from rfl, hmn]
    exact position_input_none_iff arg_idx mc.arguments
  · intro t j
    rw [show arg_use arg_idx (.transferObjects t) =
      (position (fun elem => matches_input_arg elem arg_idx)
        t.objects).map some from rfl, hms]
    exact position_input_iff arg_idx t.objects j
  · intro v j
    rw [show arg_use arg_idx (.makeMoveVector v) =
      (position (fun elem => matches_input_arg elem arg_idx)
        v.elements).map some from rfl, hms]
    exact position_input_iff arg_idx v.elements j
  · intro sc
    by_cases hc : sc.coin = .input arg_idx
    · simp [arg_use, hc, matches_input_arg]
    · simp [arg_use, (matches_input_arg_eq_false _ _).2 hc, hc]
  · intro m hc
    simp [arg_use, hc, matches_input_arg]
  · intro m j hc
    have hf := (matches_input_arg_eq_false _ _).2 hc
    simp only [arg_use, hf, Bool.false_eq_true, if_false]
    rw [hms]
    exact position_input_iff arg_idx m.coins_to_merge j
  · intro u
    by_cases hc : u.ticket = .input arg_idx
    · simp [arg_use, hc, matches_input_arg]
    · simp [arg_use, (matches_input_arg_eq_false _ _).2 hc, hc]

/-- C2 witness: MergeCoins short-circuit on the target coin and first
position in the coins-to-merge list otherwise. -/
theorem find_arg_uses_table_witness :
    arg_use 0 (.mergeCoins ⟨.input 0, [.input 0]⟩) = some none ∧
    arg_use 0 (.mergeCoins ⟨.gasCoin, [.input 0]⟩) = some (some 0) := by
  have h := find_arg_uses_table 0
  exact ⟨h.2.2.2.2.2.1 ⟨.input 0, [.input 0]⟩ rfl,
    (h.2.2.2.2.2.2.1 ⟨.gasCoin, [.input 0]⟩ 0 (by decide)).2
      ⟨by decide, fun k hk => absurd hk (by omega)⟩⟩

/-- C3 counterexample: with gas coin values 100, 50, 30 in iteration
order, budget 120 and a cap of 5, the code selects all three coins
(total 180), not the claimed first two. -/
theorem select_gas_counterexample :
    select_gas sampleReader 7 120 5 [] =
      .ok [(11, 1, 101), (12, 1, 102), (13, 1, 103)] ∧
    (Except.ok [(11, 1, 101), (12, 1, 102), (13, 1, 103)] :
        Except Error (List ObjectRef)) ≠
      .ok [(11, 1, 101), (12, 1, 102)] := by
  decide

/-- C3 (amended): gas coin selection accumulates every eligible coin in
iterator order up to the payment-object cap, without stopping at the
budget, and returns the whole accumulated set when its value covers the
budget; for coins 100, 50, 30 with budget 120 and cap 5 the selection is
all three coins, and with budget 500 it fails InsufficientResources. -/
theorem select_gas_accumulates_all (reader : StateReader)
    (owner budget cap : Nat) (input_objects : List ObjectId)
    (infos : List OwnedObjectInfo)
    (hiter : reader.account_owned_objects_info_iter owner = .ok infos) :
    select_gas reader owner budget cap input_objects =
      (if budget ≤ (eligible_gas_coins reader input_objects infos cap).foldl
          (fun acc p => wrap64 (acc + p.2)) 0 then
        .ok ((eligible_gas_coins reader input_objects infos cap).map
          (fun p => p.1))
      else .error .insufficientResources) ∧
    select_gas sampleReader 7 120 5 [] =
      .ok [(11, 1, 101), (12, 1, 102), (13, 1, 103)] ∧
    select_gas sampleReader 7 500 5 [] = .error .insufficientResources := by
  refine ⟨?_, by decide, by decide⟩
  simp [select_gas, hiter]

/-- C3 witness: the characterization applied to the concrete reader. -/
theorem select_gas_accumulates_all_witness :
    select_gas sampleReader 7 120 5 [] =
      (if 120 ≤ (eligible_gas_coins sampleReader []
          [⟨11, true⟩, ⟨12, true⟩, ⟨13, true⟩] 5).foldl
          (fun acc p => wrap64 (acc + p.2)) 0 then
        .ok ((eligible_gas_coins sampleReader []
          [⟨11, true⟩, ⟨12, true⟩, ⟨13, true⟩] 5).map (fun p => p.1))
      else .error .insufficientResources) ∧
    select_gas sampleReader 7 120 5 [] =
      .ok [(11, 1, 101), (12, 1, 102), (13, 1, 103)] ∧
    select_gas sampleReader 7 500 5 [] = .error .insufficientResources :=
  select_gas_accumulates_all sampleReader 7 120 5 []
    [⟨11, true⟩, ⟨12, true⟩, ⟨13, true⟩] (by decide)

/-- C4: a successful gas selection returns exactly the eligible coins,
whose values sum to at least the budget and whose ids avoid the
transaction's own input objects (for a reader returning objects under
their own id); a failure with the iterator available is always
`InsufficientResources`. -/
theorem select_gas_sound (reader : StateReader) (owner budget cap : Nat)
    (input_objects : List ObjectId)
    (hreader : ∀ id object,
      reader.get_object id = .ok (some object) → object.id = id) :
    (∀ refs, select_gas reader owner budget cap input_objects = .ok refs →
      (∃ infos, reader.account_owned_objects_info_iter owner = .ok infos ∧
        refs = (eligible_gas_coins reader input_objects infos cap).map
          (fun p => p.1) ∧
        budget ≤ ((eligible_gas_coins reader input_objects infos cap).map
          Prod.snd).sum) ∧
      ∀ r ∈ refs, r.1 ∉ input_objects) ∧
    (∀ infos e, reader.account_owned_objects_info_iter owner = .ok infos →
      select_gas reader owner budget cap input_objects = .error e →
      e = .insufficientResources) := by
  constructor
  · intro refs hok
    cases hiter : reader.account_owned_objects_info_iter owner with
    | error e =>
        simp [select_gas, hiter] at hok
    | ok infos =>
        simp only [select_gas, hiter] at hok
        split at hok
        case isTrue hb =>
            simp only [Except.ok.injEq] at hok
            subst hok
            have hsum := foldl_wrap_le_sum
              (eligible_gas_coins reader input_objects infos cap) 0
            refine ⟨⟨infos, rfl, rfl, by omega⟩, ?_⟩
            intro r hr
            rcases List.mem_map.1 hr with ⟨p, hp, rfl⟩
            simp only [eligible_gas_coins] at hp
            have hp' := List.mem_of_mem_take hp
            rcases List.mem_filterMap.1 hp' with ⟨object, hobj, hparse⟩
            rcases List.mem_filterMap.1 hobj with ⟨info, hinfo, hfetch⟩
            have hget := fetch_gas_object_eq_some.1 hfetch
            have hid := hreader _ _ hget
            rcases List.mem_filter.1 hinfo with ⟨-, hnotin⟩
            have hnotmem : info.object_id ∉ input_objects := by
              simpa using hnotin
            unfold parse_gas_coin at hparse
            rcases Option.map_eq_some'.1 hparse with ⟨value, -, hpeq⟩
            rw [← hpeq]
            simpa [hid] using hnotmem
        case isFalse hb =>
            simp at hok
  · intro infos e hiter herr
    simp only [select_gas, hiter] at herr
    split at herr
    · simp at herr
    · simp only [Except.error.injEq] at herr
      exact herr.symm

/-- C4 witness: the soundness statement applied to the concrete reader,
where selection succeeds with coins totalling 180 against budget 120. -/
theorem select_gas_sound_witness :
    (∃ infos, sampleReader.account_owned_objects_info_iter 7 = .ok infos ∧
      [((11 : Nat), (1 : Nat), (101 : Nat)), (12, 1, 102), (13, 1, 103)] =
        (eligible_gas_coins sampleReader [] infos 5).map (fun p => p.1) ∧
      120 ≤ ((eligible_gas_coins sampleReader [] infos 5).map
        Prod.snd).sum) ∧
    ∀ r ∈ [((11 : Nat), (1 : Nat), (101 : Nat)), (12, 1, 102),
      (13, 1, 103)], r.1 ∉ ([] : List ObjectId) :=
  (select_gas_sound sampleReader 7 120 5 [] sample_reader_coherent).1
    [(11, 1, 101), (12, 1, 102), (13, 1, 103)] (by decide)

/-- C9: a gas-coin candidate whose object cannot be fetched or cannot be
parsed as a gas coin is silently skipped: removing it from the iterator
leaves the eligible set (and hence the cap accounting) unchanged; with
the iterator available, selection fails exactly when the accumulated
value of the coins it did take is below the budget, and an iterator
creation failure propagates. -/
theorem gas_candidate_skipping (reader : StateReader)
    (input_objects : List ObjectId) (cap : Nat)
    (l₁ l₂ : List OwnedObjectInfo) (bad : OwnedObjectInfo)
    (hbad : fetch_gas_object reader bad = none ∨
      ∃ object, fetch_gas_object reader bad = some object ∧
        object.as_gas_coin = none) :
    eligible_gas_coins reader input_objects (l₁ ++ bad :: l₂) cap =
      eligible_gas_coins reader input_objects (l₁ ++ l₂) cap ∧
    (∀ owner budget infos e,
      reader.account_owned_objects_info_iter owner = .ok infos →
      (select_gas reader owner budget cap input_objects = .error e ↔
        (e = .insufficientResources ∧
          (eligible_gas_coins reader input_objects infos cap).foldl
            (fun acc p => wrap64 (acc + p.2)) 0 < budget))) ∧
    (∀ owner budget e,
      reader.account_owned_objects_info_iter owner = .error e →
      select_gas reader owner budget cap input_objects = .error e) := by
  refine ⟨?_, ?_, ?_⟩
  · simp only [eligible_gas_coins]
    congr 1
    rw [List.filter_append l₁ (bad :: l₂), List.filter_append l₁ l₂,
      List.filter_cons]
    by_cases t1 : bad.type_is_gas_coin = true
    · rw [if_pos t1]
      rw [List.filter_append (l₁.filter _) (bad :: l₂.filter _),
        List.filter_append (l₁.filter _) (l₂.filter _), List.filter_cons]
      by_cases t2 : (! input_objects.contains bad.object_id) = true
      · rw [if_pos t2]
        rcases hbad with hf | ⟨object, hf, hparse⟩
        · simp only [List.filterMap_append, List.filterMap_cons, hf]
        · have hp : parse_gas_coin object = none := by
            simp [parse_gas_coin, hparse]
          simp only [List.filterMap_append, List.filterMap_cons, hf, hp]
      · rw [if_neg t2]
    · rw [if_neg t1]
  · intro owner budget infos e hiter
    simp only [select_gas, hiter]
    constructor
    · intro h
      split at h
      · simp at h
      · simp only [Except.error.injEq] at h
        exact ⟨h.symm, by omega⟩
    · rintro ⟨rfl, hlt⟩
      rw [if_neg (by omega)]
  · intro owner budget e hiter
    simp [select_gas, hiter]

/-- C9 witness: a coin whose read fails (object 14) and a coin that does
not parse as a gas coin (object 15) are both skipped. -/
theorem gas_candidate_skipping_witness :
    eligible_gas_coins sampleReader []
        ([⟨11, true⟩] ++ ⟨14, true⟩ ::
          [⟨15, true⟩, ⟨12, true⟩, ⟨13, true⟩]) 5 =
      eligible_gas_coins sampleReader []
        ([⟨11, true⟩] ++ [⟨15, true⟩, ⟨12, true⟩, ⟨13, true⟩]) 5 ∧
    eligible_gas_coins sampleReader []
        ([⟨11, true⟩] ++ ⟨15, true⟩ :: [⟨12, true⟩, ⟨13, true⟩]) 5 =
      eligible_gas_coins sampleReader []
        ([⟨11, true⟩] ++ [⟨12, true⟩, ⟨13, true⟩]) 5 :=
  ⟨(gas_candidate_skipping sampleReader [] 5 [⟨11, true⟩]
      [⟨15, true⟩, ⟨12, true⟩, ⟨13, true⟩] ⟨14, true⟩
      (Or.inl (by decide))).1,
    (gas_candidate_skipping sampleReader [] 5 [⟨11, true⟩]
      [⟨12, true⟩, ⟨13, true⟩] ⟨15, true⟩
      (Or.inr ⟨⟨15, 1, 105, .addressOwner 7, none⟩, by decide, rfl⟩)).1⟩

end Resolve
